import Mathlib

/-!
Verification of the Lawmind/Mamimind repository against its specification.

The repository ships the Next.js frontend (upload, search, API client),
deployment scripts and architecture documents; the backend Cloud Functions
(task runtime, pipeline coordinator, query coordinator) are declared and
described but their handlers are not part of the source tree.  Frontend
behaviour below is embedded directly from the TypeScript source; backend
behaviour is modelled from the specification, and every such definition is
marked `Modelled from the spec:` in its doc comment.
-/

/- ## Frontend data model (frontend/lib/api.ts) -/

/-- Metadata of a document, from the `Document` interface in `api.ts`. -/
structure DocMetadata where
  filename : String
  file_size : Nat
  mime_type : String
  page_count : Option Nat := none
deriving Repr, DecidableEq

/-- A document record as seen by the frontend (`Document` in `api.ts`);
`status` is an open string on the wire. -/
structure Document where
  doc_id : String
  user_id : String
  status : String
  metadata : DocMetadata
  created_at : String
  updated_at : String
deriving Repr, DecidableEq

/- ## listDocuments (api.ts, `MamimindAPI.listDocuments`) -/

/-- A JavaScript value occupying the `documents` field of the backend
response: it may be absent (`undefined`), `null`, a boolean, a number,
a string, or an array of documents. -/
inductive JsField (α : Type)
  | undef
  | nullv
  | boolv (b : Bool)
  | numv (n : Int)
  | strv (s : String)
  | arrv (xs : List α)
deriving Repr, DecidableEq

/-- JavaScript truthiness of a `JsField` value. -/
def JsField.truthy {α : Type} : JsField α → Bool
  | .undef => false
  | .nullv => false
  | .boolv b => b
  | .numv n => n != 0
  | .strv s => !s.isEmpty
  | .arrv _ => true

/-- `listDocuments` body: `return response.data.documents || [];` —
the JavaScript `||` yields the left operand when truthy, else the right. -/
def listDocumentsResult (documents : JsField Document) : JsField Document :=
  if documents.truthy then documents else .arrv []

/- ## SearchBox (frontend/components/SearchBox.tsx) -/

/-- JavaScript `String.prototype.trim`: strip leading and trailing
whitespace. -/
def jsTrim (s : String) : String :=
  String.mk
    (((s.toList.dropWhile Char.isWhitespace).reverse.dropWhile
        Char.isWhitespace).reverse)

/-- `handleSubmit`: `if (query.trim() && !isLoading) onSearch(query.trim())`.
The returned list records each invocation of the `onSearch` callback with
its argument; submitting invokes it at most once. -/
def searchSubmitCalls (query : String) (isLoading : Bool) : List String :=
  if !(jsTrim query).isEmpty && !isLoading then [jsTrim query] else []

/-- The submit button attribute `disabled={!query.trim() || isLoading}`. -/
def searchSubmitDisabled (query : String) (isLoading : Bool) : Bool :=
  (jsTrim query).isEmpty || isLoading

/- ## UploadBox (UploadBox.tsx, `onDrop`) -/

/-- The status field of the component `UploadState`. -/
inductive UploadStatus
  | idle
  | uploading
  | success
  | error
deriving Repr, DecidableEq

/-- The component state set by `setUploadState`. -/
structure UploadState where
  status : UploadStatus
  progress : Nat
  message : String
  docId : Option String := none
deriving Repr, DecidableEq

/-- A file delivered by the dropzone (`acceptedFiles[0]`): name,
MIME type and size in bytes. -/
structure DroppedFile where
  name : String
  mimeType : String
  size : Nat
deriving Repr, DecidableEq

/-- One of the three upload API calls made by `onDrop`. -/
inductive UploadApiCall
  | getUploadUrl (userId filename : String) (size : Nat) (mime : String)
  | uploadFile (uploadUrl : String)
  | completeUpload (docId : String)
deriving Repr, DecidableEq

/-- The `/upload` response used by `onDrop` (`UploadResponse` in `api.ts`). -/
structure UploadResponse where
  doc_id : String
  upload_url : String
  storage_path : String
deriving Repr, DecidableEq

/-- Whether `needle` occurs as a contiguous substring of `hay`
(JavaScript `String.prototype.includes`). -/
def listContainsSub (needle : List Char) : List Char → Bool
  | [] => needle.isEmpty
  | c :: rest => needle.isPrefixOf (c :: rest) || listContainsSub needle rest

/-- `file.type.includes('pdf')` from the `onDrop` validation. -/
def mimeIncludesPdf (mime : String) : Bool :=
  listContainsSub "pdf".toList mime.toList

/-- The 50MB limit from `onDrop`: `50 * 1024 * 1024`. -/
def uploadSizeLimit : Nat := 50 * 1024 * 1024

/-- `UploadBox.onDrop` on one accepted file, on the path where network
calls succeed: validates the MIME type then the size, entering the error
state with the corresponding message and making no API call on failure;
otherwise performs the three API calls in order and ends in the success
state.  `uploadData` stands for the `/upload` response; the `catch`
branch for failed network calls is outside this embedding. -/
def onDropFile (userId : String) (file : DroppedFile)
    (uploadData : UploadResponse) : UploadState × List UploadApiCall :=
  if !(mimeIncludesPdf file.mimeType) then
    ({ status := .error, progress := 0,
       message := "Only PDF files are supported" }, [])
  else if file.size > uploadSizeLimit then
    ({ status := .error, progress := 0,
       message := "File size must be less than 50MB" }, [])
  else
    ({ status := .success, progress := 100,
       message := "Upload successful! Processing in background.",
       docId := some uploadData.doc_id },
     [.getUploadUrl userId file.name file.size file.mimeType,
      .uploadFile uploadData.upload_url,
      .completeUpload uploadData.doc_id])

/-- The document added to the store by `onDrop` (`addDocument({...})`):
its status is the literal string written in `UploadBox.tsx`. -/
def uploadBoxAddedDocument (userId : String) (file : DroppedFile)
    (uploadData : UploadResponse) (now : String) : Document :=
  { doc_id := uploadData.doc_id
    user_id := userId
    status := "ocr_processing"
    metadata :=
      { filename := file.name
        file_size := file.size
        mime_type := file.mimeType }
    created_at := now
    updated_at := now }

/- ## Document statuses appearing in the source -/

/-- The status keys of `DocumentRow.statusConfig` in the upload page:
every status the UI recognizes. -/
def statusConfigKeys : List String :=
  ["uploaded", "ocr_processing", "ocr_completed", "indexing",
   "indexed", "ready", "failed"]

/-- The status set claimed by §4.4 of the specification, stated in the
spec's own names (for comparison with the source's statuses). -/
def specSectionFourStatuses : List String :=
  ["uploaded", "extracting", "extracted", "indexing", "ready", "failed"]

/-- `SearchPage.readyDocs` filter: `['ready', 'indexed'].includes(doc.status)`. -/
def searchReadyStatuses : List String := ["ready", "indexed"]

/- ## Document state machine -/

/-- Modelled from the spec: the durable document status.  §4.4 names the
middle states `extracting`/`extracted`, but the source consistently uses
the status strings of `DocumentRow.statusConfig` (`ocr_processing`,
`ocr_completed`, plus `indexed`); the machine is stated with the source's
names. -/
inductive DocStatus
  | uploaded
  | ocr_processing
  | ocr_completed
  | indexing
  | indexed
  | ready
  | failed
deriving Repr, DecidableEq, Fintype

/-- The status string stored for each machine state, as it appears in the
source. -/
def DocStatus.str : DocStatus → String
  | .uploaded => "uploaded"
  | .ocr_processing => "ocr_processing"
  | .ocr_completed => "ocr_completed"
  | .indexing => "indexing"
  | .indexed => "indexed"
  | .ready => "ready"
  | .failed => "failed"

/-- Modelled from the spec: the pipeline events of the §4.4 transition
table (task accepted / task succeeded / retries exhausted for each of the
two stages). -/
inductive DocEvent
  | ocrAccepted
  | ocrSucceeded
  | ocrExhausted
  | indexAccepted
  | indexSucceeded
  | indexExhausted
deriving Repr, DecidableEq, Fintype

/-- Modelled from the spec: a status is terminal when no stage may move
the record further (`ready`, `failed`; `indexed` is displayed and searched
as ready by the source, so it is terminal as well). -/
def DocStatus.isTerminal : DocStatus → Bool
  | .ready => true
  | .indexed => true
  | .failed => true
  | _ => false

/-- Modelled from the spec: the §4.4 transition table with the source's
status names — `none` when the event does not apply in the given state
(the coordinator then discards the message). -/
def docStep : DocStatus → DocEvent → Option DocStatus
  | .uploaded, .ocrAccepted => some .ocr_processing
  | .ocr_processing, .ocrSucceeded => some .ocr_completed
  | .ocr_processing, .ocrExhausted => some .failed
  | .ocr_completed, .indexAccepted => some .indexing
  | .indexing, .indexSucceeded => some .ready
  | .indexing, .indexExhausted => some .failed
  | _, _ => none

/-- Applying one event: an inapplicable event leaves the status unchanged
(discarded delivery). -/
def applyEvent (s : DocStatus) (e : DocEvent) : DocStatus :=
  (docStep s e).getD s

/-- The status after a sequence of events. -/
def runEvents (s : DocStatus) (es : List DocEvent) : DocStatus :=
  es.foldl applyEvent s

/-- Every status the record holds while processing a sequence of events,
the starting status included. -/
def visitedStatuses (s : DocStatus) : List DocEvent → List DocStatus
  | [] => [s]
  | e :: es => s :: visitedStatuses (applyEvent s e) es

/-- The directed edges of the transition table (from, to). -/
def docEdges : List (DocStatus × DocStatus) :=
  [(.uploaded, .ocr_processing), (.ocr_processing, .ocr_completed),
   (.ocr_processing, .failed), (.ocr_completed, .indexing),
   (.indexing, .ready), (.indexing, .failed)]

/- ## Pipeline coordination (modelled from the spec) -/

/-- Modelled from the spec: a Pipeline Message (§3) — document identifier,
stage to run next, attempt number and trace identifier; immutable. -/
structure PipelineMessage where
  document_id : String
  stage : String
  attempt : Nat
  trace_id : String
deriving Repr, DecidableEq

/-- Modelled from the spec: the durable Document Record (§3).  The
`storage_locations` mapping is kept as an association list, lookup
returning the first binding of a key. -/
structure DocumentRecord where
  document_id : String
  owner_id : String
  status : DocStatus
  storage_locations : List (String × String)
  last_error : Option String
deriving Repr, DecidableEq

/-- Modelled from the spec: the expected pre-state of each stage (§4.5's
idempotence guard checks the reloaded status against it); unknown stages
have none and are dead-lettered. -/
def expectedPre (stage : String) : Option DocStatus :=
  if stage = "extract" then some .uploaded
  else if stage = "index" then some .ocr_completed
  else none

/-- Modelled from the spec: the status written after a stage's terminal
success (§4.4's table, collapsed over the in-flight state since the
coordinator handles one message to completion). -/
def postOnSuccess (stage : String) : DocStatus :=
  if stage = "extract" then .ocr_completed
  else if stage = "index" then .ready
  else .failed

/-- Modelled from the spec: the next stage published after a terminal
success, none when the stage is the last one. -/
def nextStage (stage : String) : Option String :=
  if stage = "extract" then some "index"
  else none

/-- The outcome of handling one Pipeline Message: the persisted record,
the messages published for the next stage, and whether the stage's task
was actually run. -/
structure CoordinatorOutcome where
  record : DocumentRecord
  published : List PipelineMessage
  taskRan : Bool
deriving Repr, DecidableEq

/-- Modelled from the spec: §4.5's message handling.  The record is
reloaded and its status checked against the stage's expected pre-state;
on mismatch the message is acknowledged and discarded without running the
task.  Otherwise the task runs (`taskSucceeded` abstracts its terminal
result): success applies the stage's transition and publishes the next
stage's message; failure applies the `failed` transition, records
`last_error`, and publishes nothing. -/
def handleMessage (r : DocumentRecord) (m : PipelineMessage)
    (taskSucceeded : Bool) : CoordinatorOutcome :=
  match expectedPre m.stage with
  | none => ⟨r, [], false⟩
  | some pre =>
    if r.status = pre then
      if taskSucceeded then
        { record := { r with status := postOnSuccess m.stage }
          published :=
            (nextStage m.stage).toList.map fun s =>
              { m with stage := s, attempt := 1 }
          taskRan := true }
      else
        { record := { r with status := .failed,
                             last_error := some "stage failed" }
          published := []
          taskRan := true }
    else ⟨r, [], false⟩

/-- Modelled from the spec: recording a stage artifact appends a new
entry to `storage_locations`; nothing is overwritten or removed (§3's
append-only invariant). -/
def recordArtifact (r : DocumentRecord) (name location : String) :
    DocumentRecord :=
  { r with storage_locations := r.storage_locations ++ [(name, location)] }

/- ## Task runtime (modelled from the spec) -/

/-- Modelled from the spec: the error kinds of §7. -/
inductive ErrorKind
  | invalid_input
  | timeout
  | rate_limited
  | network
  | permission
  | not_found
  | unknown
deriving Repr, DecidableEq, Fintype

/-- Modelled from the spec: the Task Result envelope (§3) — success,
failure with an error kind, or a partially-successful result. -/
inductive TaskResult (β : Type)
  | success (output : β)
  | failure (kind : ErrorKind) (message : String)
  | partialSuccess (output : β) (warnings : List String)
deriving Repr, DecidableEq

/-- Modelled from the spec: the retry policy of §4.3 — `max_attempts`
defaults to 3 and `retryable_kinds` to network/timeout/rate-limit;
backoff durations are in abstract time units. -/
structure RetryPolicy where
  max_attempts : Nat := 3
  base_backoff : Nat
  max_backoff : Nat
  retryable_kinds : List ErrorKind := [.network, .timeout, .rate_limited]
deriving Repr, DecidableEq

/-- Modelled from the spec: the expected backoff before retrying after
the given attempt — `base * 2^attempt` with the jitter factor
`random(0.5, 1.5)` taken at its expectation 1, capped at `max_backoff`. -/
def expectedBackoff (p : RetryPolicy) (attempt : Nat) : Nat :=
  min (p.base_backoff * 2 ^ attempt) p.max_backoff

/-- Modelled from the spec: a task implementation (§4.1) — a pure,
total validation predicate and an execute step that may depend on the
attempt number.  Lifecycle hooks carry no data the properties need, so
the event trace below records their invocations. -/
structure TaskImpl (α β : Type) where
  validate : α → Bool
  execute : Nat → α → TaskResult β

/-- An observable event of one runtime invocation, in order: hook
invocations, execute calls and backoff sleeps.  Network or storage is
only ever touched from inside `executed` or the hooks, so an empty trace
means no external resource was touched. -/
inductive RunEvent
  | beforeHook (attempt : Nat)
  | executed (attempt : Nat)
  | afterHook
  | slept (duration : Nat)
deriving Repr, DecidableEq

/-- Modelled from the spec: the retry loop of §4.3 (steps 2–6), called
with the current attempt number and the number of attempts still allowed.
A retryable failure with attempts remaining sleeps for the backoff and
retries; anything else invokes `after` and returns. -/
def runAttempts {α β : Type} (t : TaskImpl α β) (p : RetryPolicy) (input : α) :
    Nat → Nat → TaskResult β × List RunEvent
  | _, 0 => (.failure .unknown "no attempts allowed", [])
  | attempt, remaining + 1 =>
    let r := t.execute attempt input
    let evs := [RunEvent.beforeHook attempt, RunEvent.executed attempt]
    match r with
    | .failure kind msg =>
      if p.retryable_kinds.contains kind && remaining != 0 then
        let d := expectedBackoff p attempt
        let rest := runAttempts t p input (attempt + 1) remaining
        (rest.1, evs ++ RunEvent.slept d :: rest.2)
      else
        (.failure kind msg, evs ++ [RunEvent.afterHook])
    | other => (other, evs ++ [RunEvent.afterHook])

/-- Modelled from the spec: `run(task, context, input, policy)` (§4.3).
Step 1 validates the input and, on false, returns
`failure(invalid_input, …)` immediately — before any hook, execute call
or sleep, hence with an empty event trace. -/
def TaskRuntime.run {α β : Type} (t : TaskImpl α β) (p : RetryPolicy)
    (input : α) : TaskResult β × List RunEvent :=
  if t.validate input then runAttempts t p input 1 p.max_attempts
  else (.failure .invalid_input "input rejected by validate", [])

/-- How many times `execute` was invoked in a trace. -/
def executeCount (evs : List RunEvent) : Nat :=
  evs.countP fun e =>
    match e with
    | .executed _ => true
    | _ => false

/- ## Query coordinator (modelled from the spec) -/

/-- A retrieved chunk with its citation data (`Citation` in `api.ts`). -/
structure Chunk where
  doc_id : String
  chunk_id : String
  text : String
  page_number : Option Nat := none
  confidence : ℚ
deriving Repr, DecidableEq

/-- The query result surfaced to the caller (`QueryResult` in `api.ts`),
with a flag distinguishing the "no evidence found" outcome. -/
structure QueryOutcome where
  query : String
  answer : String
  citations : List Chunk
  confidence : ℚ
  noEvidence : Bool
deriving Repr, DecidableEq

/-- Modelled from the spec: the distinct "no evidence found" result —
no citations, confidence exactly 0. -/
def noEvidenceResult (q : String) : QueryOutcome :=
  { query := q
    answer := "No relevant evidence was found for this query."
    citations := []
    confidence := 0
    noEvidence := true }

/-- Modelled from the spec: the Query Coordinator (§4.6) — run retrieval,
and if it returns zero chunks skip the reasoning task and return the
no-evidence result; otherwise run reasoning on the chunks.  The boolean
reports whether the reasoning task was invoked. -/
def queryCoordinator (retrieve : String → List Chunk)
    (reason : String → List Chunk → QueryOutcome) (q : String) :
    QueryOutcome × Bool :=
  let chunks := retrieve q
  if chunks.isEmpty then (noEvidenceResult q, false)
  else (reason q chunks, true)

/- ## Theorems -/

/-- C10: `listDocuments` always resolves to an array — whenever the
backend's `documents` field is absent or falsy the result is the empty
array (never `undefined` or `null`), and a present array is returned
as is. -/
theorem listDocuments_always_array :
    (∀ f : JsField Document, f.truthy = false →
      listDocumentsResult f = .arrv [])
    ∧ ∀ xs : List Document, listDocumentsResult (.arrv xs) = .arrv xs := by
  constructor
  · intro f h
    simp [listDocumentsResult, h]
  · intro xs
    simp [listDocumentsResult, JsField.truthy]

/-- Witness for C10 at the concrete response whose `documents` field is
absent. -/
theorem listDocuments_always_array_witness :
    (JsField.undef : JsField Document).truthy = false
    ∧ listDocumentsResult (JsField.undef : JsField Document) = .arrv [] :=
  ⟨rfl, listDocuments_always_array.1 JsField.undef rfl⟩

/-- C9: submitting the search form with a query whose trimmed form is
empty never invokes `onSearch` (and the submit button is disabled);
with a non-blank query and no search in flight, `onSearch` is invoked
exactly once, with the trimmed string. -/
theorem search_submit_trimmed :
    ∀ (q : String) (isLoading : Bool),
      (jsTrim q = "" →
        searchSubmitCalls q isLoading = []
        ∧ searchSubmitDisabled q isLoading = true)
      ∧ (jsTrim q ≠ "" → isLoading = false →
        searchSubmitCalls q isLoading = [jsTrim q]) := by
  intro q isLoading
  constructor
  · intro h
    simp [searchSubmitCalls, searchSubmitDisabled, h, String.isEmpty_iff]
  · intro h hl
    simp [searchSubmitCalls, hl, String.isEmpty_iff, h]

/-- Witness for C9 at a blank query and at a padded non-blank query. -/
theorem search_submit_trimmed_witness :
    (jsTrim "   " = "" ∧ searchSubmitCalls "   " false = []
      ∧ searchSubmitDisabled "   " false = true)
    ∧ (jsTrim " hi " ≠ "" ∧ searchSubmitCalls " hi " false = ["hi"]) :=
  ⟨⟨by decide, ((search_submit_trimmed "   " false).1 (by decide)).1,
      ((search_submit_trimmed "   " false).1 (by decide)).2⟩,
   ⟨by decide, by
      have h := (search_submit_trimmed " hi " false).2 (by decide) rfl
      have ht : jsTrim " hi " = "hi" := by decide
      rw [ht] at h
      exact h⟩⟩

/-- C8: a dropped file whose MIME type does not contain `pdf`, or whose
size exceeds 50MB, puts the component in the error state with the
corresponding message, and none of the three upload API calls is made. -/
theorem upload_validation_rejects :
    ∀ (userId : String) (file : DroppedFile) (uploadData : UploadResponse),
      (mimeIncludesPdf file.mimeType = false →
        onDropFile userId file uploadData =
          ({ status := .error, progress := 0,
             message := "Only PDF files are supported" }, []))
      ∧ (mimeIncludesPdf file.mimeType = true →
          file.size > uploadSizeLimit →
        onDropFile userId file uploadData =
          ({ status := .error, progress := 0,
             message := "File size must be less than 50MB" }, [])) := by
  intro userId file uploadData
  constructor
  · intro h
    simp [onDropFile, h]
  · intro h hsize
    simp [onDropFile, h, hsize]

/-- Witness for C8: a plain-text file is rejected with the PDF message
and no API call, an oversized PDF with the size message and no API
call. -/
theorem upload_validation_rejects_witness :
    (mimeIncludesPdf "text/plain" = false
      ∧ onDropFile "u1" ⟨"notes.txt", "text/plain", 100⟩ ⟨"d1", "url", "p"⟩ =
          ({ status := .error, progress := 0,
             message := "Only PDF files are supported" }, []))
    ∧ (mimeIncludesPdf "application/pdf" = true
      ∧ 52428801 > uploadSizeLimit
      ∧ onDropFile "u1" ⟨"big.pdf", "application/pdf", 52428801⟩
            ⟨"d1", "url", "p"⟩ =
          ({ status := .error, progress := 0,
             message := "File size must be less than 50MB" }, [])) :=
  ⟨⟨by decide,
     (upload_validation_rejects "u1" ⟨"notes.txt", "text/plain", 100⟩
        ⟨"d1", "url", "p"⟩).1 (by decide)⟩,
   ⟨by decide, by decide,
     (upload_validation_rejects "u1" ⟨"big.pdf", "application/pdf", 52428801⟩
        ⟨"d1", "url", "p"⟩).2 (by decide) (by decide)⟩⟩

/-- C2: when retrieval returns zero chunks, the Query Coordinator never
invokes the reasoning task and returns the distinct no-evidence result,
whose confidence is exactly 0. -/
theorem query_zero_results_skips_reasoning :
    ∀ (retrieve : String → List Chunk)
      (reason : String → List Chunk → QueryOutcome) (q : String),
      retrieve q = [] →
      queryCoordinator retrieve reason q = (noEvidenceResult q, false)
      ∧ (noEvidenceResult q).confidence = 0
      ∧ (noEvidenceResult q).noEvidence = true := by
  intro retrieve reason q h
  refine ⟨?_, rfl, rfl⟩
  simp [queryCoordinator, h]

/-- Witness for C2 with a retrieval task that finds nothing and a
reasoning task that would answer with full confidence if invoked. -/
theorem query_zero_results_skips_reasoning_witness :
    (fun _ : String => ([] : List Chunk)) "any question" = []
    ∧ queryCoordinator (fun _ => [])
        (fun q c => ⟨q, "made up", c, 1, false⟩) "any question" =
        (noEvidenceResult "any question", false) :=
  ⟨rfl,
   (query_zero_results_skips_reasoning (fun _ => [])
      (fun q c => ⟨q, "made up", c, 1, false⟩) "any question" rfl).1⟩

/-- C3: an input rejected by the task's `validate` makes the runtime
return `failure(invalid_input, …)` immediately with an empty event
trace — no lifecycle hook, no execute call, no retry sleep, hence no
external resource touched; `validate` itself is a total boolean
predicate and never throws. -/
theorem run_invalid_input_immediate :
    ∀ (α β : Type) (t : TaskImpl α β) (p : RetryPolicy) (input : α),
      t.validate input = false →
      TaskRuntime.run t p input =
        (.failure .invalid_input "input rejected by validate", []) := by
  intro α β t p input h
  simp [TaskRuntime.run, h]

/-- Witness for C3: a task validating positivity, run on `0`. -/
theorem run_invalid_input_immediate_witness :
    (TaskImpl.mk (fun n : Nat => decide (0 < n))
        (fun _ _ => TaskResult.success 7)).validate 0 = false
    ∧ TaskRuntime.run
        (TaskImpl.mk (fun n : Nat => decide (0 < n))
          (fun _ _ => TaskResult.success 7))
        { base_backoff := 10, max_backoff := 100 } 0 =
        (.failure .invalid_input "input rejected by validate", []) :=
  ⟨rfl,
   run_invalid_input_immediate Nat Nat
     (TaskImpl.mk (fun n : Nat => decide (0 < n))
       (fun _ _ => TaskResult.success 7))
     { base_backoff := 10, max_backoff := 100 } 0 rfl⟩

/-- C6: expected backoff delays (jitter taken at its expectation) are
non-decreasing over successive attempts and every delay is bounded by
`max_backoff`. -/
theorem backoff_monotone_bounded :
    ∀ (p : RetryPolicy) (i j : Nat), i ≤ j →
      expectedBackoff p i ≤ expectedBackoff p j
      ∧ ∀ a, expectedBackoff p a ≤ p.max_backoff := by
  intro p i j h
  constructor
  · exact min_le_min
      (Nat.mul_le_mul (le_refl p.base_backoff)
        (Nat.pow_le_pow_right (by norm_num) h))
      (le_refl p.max_backoff)
  · intro a
    exact min_le_right _ _

/-- Witness for C6 at attempts 1 ≤ 2 under a concrete policy. -/
theorem backoff_monotone_bounded_witness :
    (1 : Nat) ≤ 2
    ∧ expectedBackoff { base_backoff := 100, max_backoff := 1000 } 1 ≤
        expectedBackoff { base_backoff := 100, max_backoff := 1000 } 2
    ∧ ∀ a, expectedBackoff { base_backoff := 100, max_backoff := 1000 } a ≤
        1000 :=
  ⟨by decide,
   (backoff_monotone_bounded { base_backoff := 100, max_backoff := 1000 }
      1 2 (by decide)).1,
   (backoff_monotone_bounded { base_backoff := 100, max_backoff := 1000 }
      1 2 (by decide)).2⟩

/-- One last attempt under a task that fails with a retryable kind:
the loop returns the failure after its single execute call. -/
theorem runAttempts_fail_one {α β : Type} (t : TaskImpl α β)
    (p : RetryPolicy) (input : α) (k : ErrorKind) (msg : String)
    (hfail : ∀ a, t.execute a input = .failure k msg) (attempt : Nat) :
    runAttempts t p input attempt 1 =
      (.failure k msg,
       [.beforeHook attempt, .executed attempt, .afterHook]) := by
  simp [runAttempts, hfail]

/-- With at least two attempts allowed, a retryable failure sleeps for
the backoff and recurses on the next attempt. -/
theorem runAttempts_fail_step {α β : Type} (t : TaskImpl α β)
    (p : RetryPolicy) (input : α) (k : ErrorKind) (msg : String)
    (hfail : ∀ a, t.execute a input = .failure k msg)
    (hk : p.retryable_kinds.contains k = true) (attempt m : Nat) :
    runAttempts t p input attempt (m + 2) =
      ((runAttempts t p input (attempt + 1) (m + 1)).1,
       .beforeHook attempt :: .executed attempt ::
         .slept (expectedBackoff p attempt) ::
         (runAttempts t p input (attempt + 1) (m + 1)).2) := by
  have hmem : k ∈ p.retryable_kinds := by simpa using hk
  conv_lhs => rw [runAttempts]
  rw [hfail attempt]
  simp [hmem]

/-- Retry loop under a task that always fails with a retryable kind:
every allowed attempt is consumed and the terminal result is that
failure. -/
theorem runAttempts_always_retryable {α β : Type} (t : TaskImpl α β)
    (p : RetryPolicy) (input : α) (k : ErrorKind) (msg : String)
    (hfail : ∀ a, t.execute a input = .failure k msg)
    (hk : p.retryable_kinds.contains k = true) :
    ∀ (remaining attempt : Nat), 1 ≤ remaining →
      (runAttempts t p input attempt remaining).1 = TaskResult.failure k msg
      ∧ executeCount (runAttempts t p input attempt remaining).2 =
          remaining := by
  intro remaining
  induction remaining with
  | zero => intro attempt h; omega
  | succ n ih =>
    intro attempt _
    cases n with
    | zero =>
      rw [runAttempts_fail_one t p input k msg hfail attempt]
      simp [executeCount]
    | succ m =>
      obtain ⟨h1, h2⟩ := ih (attempt + 1) (by omega)
      rw [runAttempts_fail_step t p input k msg hfail hk attempt m]
      refine ⟨h1, ?_⟩
      simp only [executeCount, List.countP_cons] at h2 ⊢
      simp
      omega

/-- A failure of a non-retryable kind ends the loop after one execute
call, whatever the remaining attempt budget. -/
theorem runAttempts_nonretryable {α β : Type} (t : TaskImpl α β)
    (p : RetryPolicy) (input : α) (k : ErrorKind) (msg : String)
    (hfail : ∀ a, t.execute a input = .failure k msg)
    (hk : p.retryable_kinds.contains k = false) :
    ∀ (remaining attempt : Nat), 1 ≤ remaining →
      runAttempts t p input attempt remaining =
        (.failure k msg,
         [.beforeHook attempt, .executed attempt, .afterHook]) := by
  intro remaining attempt h
  cases remaining with
  | zero => omega
  | succ n =>
    have hnmem : k ∉ p.retryable_kinds := by simpa using hk
    conv_lhs => rw [runAttempts]
    rw [hfail attempt]
    simp [hnmem]

/-- C5: a task that always returns a retryable failure is executed
exactly `max_attempts` times before the runtime returns the terminal
failure, while a failure of a non-retryable kind is never retried —
one execute call only. -/
theorem retry_bound_exact_attempts :
    ∀ (α β : Type) (t : TaskImpl α β) (p : RetryPolicy) (input : α)
      (k : ErrorKind) (msg : String),
      t.validate input = true →
      (∀ a, t.execute a input = .failure k msg) →
      p.retryable_kinds.contains k = true →
      1 ≤ p.max_attempts →
      (executeCount (TaskRuntime.run t p input).2 = p.max_attempts
        ∧ (TaskRuntime.run t p input).1 = .failure k msg)
      ∧ ∀ (t2 : TaskImpl α β) (k2 : ErrorKind) (msg2 : String),
          t2.validate input = true →
          (∀ a, t2.execute a input = .failure k2 msg2) →
          p.retryable_kinds.contains k2 = false →
          executeCount (TaskRuntime.run t2 p input).2 = 1
          ∧ (TaskRuntime.run t2 p input).1 = .failure k2 msg2 := by
  intro α β t p input k msg hval hfail hk hpos
  constructor
  · have h := runAttempts_always_retryable t p input k msg hfail hk
      p.max_attempts 1 hpos
    simp only [TaskRuntime.run, hval, if_true]
    exact ⟨h.2, h.1⟩
  · intro t2 k2 msg2 hval2 hfail2 hk2
    have h := runAttempts_nonretryable t2 p input k2 msg2 hfail2 hk2
      p.max_attempts 1 hpos
    simp [TaskRuntime.run, hval2, h, executeCount, List.countP_cons]

/-- Witness for C5: under the default policy (three attempts, network
retryable), an always-network-failing task is executed three times; a
permission failure is executed once. -/
theorem retry_bound_exact_attempts_witness :
    executeCount (TaskRuntime.run
      ({ validate := fun _ => true,
         execute := fun _ _ => TaskResult.failure .network "down" } :
        TaskImpl Unit Nat)
      { base_backoff := 10, max_backoff := 100 } ()).2 = 3
    ∧ (TaskRuntime.run
        ({ validate := fun _ => true,
           execute := fun _ _ => TaskResult.failure .network "down" } :
          TaskImpl Unit Nat)
        { base_backoff := 10, max_backoff := 100 } ()).1 =
        TaskResult.failure ErrorKind.network "down"
    ∧ executeCount (TaskRuntime.run
        ({ validate := fun _ => true,
           execute := fun _ _ => TaskResult.failure .permission "denied" } :
          TaskImpl Unit Nat)
        { base_backoff := 10, max_backoff := 100 } ()).2 = 1 :=
  have h := retry_bound_exact_attempts Unit Nat
    ({ validate := fun _ => true,
       execute := fun _ _ => TaskResult.failure .network "down" } :
      TaskImpl Unit Nat)
    { base_backoff := 10, max_backoff := 100 } () .network "down"
    rfl (fun _ => rfl) (by decide) (by decide)
  ⟨h.1.1, h.1.2,
   (h.2 ({ validate := fun _ => true,
           execute := fun _ _ => TaskResult.failure .permission "denied" } :
          TaskImpl Unit Nat)
     .permission "denied" rfl (fun _ => rfl) (by decide)).1⟩

/-- C4: delivering the same Pipeline Message again after its stage has
transitioned the record is a no-op — the coordinator reloads the record,
sees a status differing from the stage's expected pre-state, and
acknowledges and discards the message: no second transition, no second
publication, the task not re-run. -/
theorem duplicate_delivery_noop :
    ∀ (r : DocumentRecord) (m : PipelineMessage),
      (handleMessage r m true).taskRan = true →
      ∀ b : Bool,
        handleMessage (handleMessage r m true).record m b =
          { record := (handleMessage r m true).record,
            published := [], taskRan := false } := by
  intro r m h b
  by_cases h1 : m.stage = "extract"
  · have hst : r.status = DocStatus.uploaded := by
      by_contra hne
      simp [handleMessage, expectedPre, h1, hne] at h
    simp [handleMessage, expectedPre, postOnSuccess, h1, hst]
  · by_cases h2 : m.stage = "index"
    · have hst : r.status = DocStatus.ocr_completed := by
        by_contra hne
        simp [handleMessage, expectedPre, h1, h2, hne] at h
      simp [handleMessage, expectedPre, postOnSuccess, h1, h2, hst]
    · simp [handleMessage, expectedPre, h1, h2] at h

/-- Witness for C4: an `extract` message delivered twice against a
record in `uploaded`. -/
theorem duplicate_delivery_noop_witness :
    (handleMessage ⟨"doc1", "user1", .uploaded, [], none⟩
        ⟨"doc1", "extract", 1, "trace1"⟩ true).taskRan = true
    ∧ handleMessage
        (handleMessage ⟨"doc1", "user1", .uploaded, [], none⟩
          ⟨"doc1", "extract", 1, "trace1"⟩ true).record
        ⟨"doc1", "extract", 1, "trace1"⟩ true =
      { record := (handleMessage ⟨"doc1", "user1", .uploaded, [], none⟩
          ⟨"doc1", "extract", 1, "trace1"⟩ true).record,
        published := [], taskRan := false } :=
  ⟨rfl,
   duplicate_delivery_noop ⟨"doc1", "user1", .uploaded, [], none⟩
     ⟨"doc1", "extract", 1, "trace1"⟩ rfl true⟩

/-- A key bound in the front part of an association list keeps its
binding when entries are appended at the back. -/
theorem lookup_append_some (xs ys : List (String × String)) (k v : String)
    (h : xs.lookup k = some v) : (xs ++ ys).lookup k = some v := by
  induction xs with
  | nil => simp [List.lookup] at h
  | cons a t ih =>
    obtain ⟨a1, a2⟩ := a
    rw [List.cons_append]
    by_cases hk : k = a1
    · simp [List.lookup, hk] at h ⊢
      exact h
    · have hb : (k == a1) = false := by simp [hk]
      simp [List.lookup, hb] at h ⊢
      exact ih h

/-- C7: `storage_locations` is append-only — every key already bound
keeps its value when an artifact is recorded (even when a reprocessed
stage appends a new version under the same name), every existing entry is
preserved, and the coordinator's transitions never touch
`storage_locations` at all. -/
theorem storage_locations_append_only :
    ∀ (r : DocumentRecord) (name location : String),
      (∀ k v, r.storage_locations.lookup k = some v →
        (recordArtifact r name location).storage_locations.lookup k =
          some v)
      ∧ (∀ e, e ∈ r.storage_locations →
          e ∈ (recordArtifact r name location).storage_locations)
      ∧ (∀ (m : PipelineMessage) (b : Bool),
          (handleMessage r m b).record.storage_locations =
            r.storage_locations) := by
  intro r name location
  refine ⟨?_, ?_, ?_⟩
  · intro k v h
    exact lookup_append_some _ _ _ _ h
  · intro e he
    simp [recordArtifact]
    exact Or.inl he
  · intro m b
    unfold handleMessage
    cases hE : expectedPre m.stage with
    | none => rfl
    | some pre =>
      by_cases hs : r.status = pre
      · cases b <;> simp [hs]
      · simp [hs]

/-- Witness for C7: recording a second `ocr` artifact keeps the first
binding, and a successful `extract` transition leaves the mapping
untouched. -/
theorem storage_locations_append_only_witness :
    ([("ocr", "a")] : List (String × String)).lookup "ocr" = some "a"
    ∧ (recordArtifact ⟨"d", "u", .uploaded, [("ocr", "a")], none⟩
        "ocr" "b").storage_locations.lookup "ocr" = some "a"
    ∧ ("ocr", "a") ∈ (recordArtifact ⟨"d", "u", .uploaded, [("ocr", "a")], none⟩
        "ocr" "b").storage_locations
    ∧ (handleMessage ⟨"d", "u", .uploaded, [("ocr", "a")], none⟩
        ⟨"d", "extract", 1, "t"⟩ true).record.storage_locations =
        [("ocr", "a")] :=
  ⟨rfl,
   (storage_locations_append_only ⟨"d", "u", .uploaded, [("ocr", "a")], none⟩
      "ocr" "b").1 "ocr" "a" rfl,
   (storage_locations_append_only ⟨"d", "u", .uploaded, [("ocr", "a")], none⟩
      "ocr" "b").2.1 ("ocr", "a") (by simp),
   (storage_locations_append_only ⟨"d", "u", .uploaded, [("ocr", "a")], none⟩
      "ocr" "b").2.2 ⟨"d", "extract", 1, "t"⟩ true⟩

/-- The final status of a run is among the visited statuses. -/
theorem runEvents_mem_visited :
    ∀ (es : List DocEvent) (s : DocStatus),
      runEvents s es ∈ visitedStatuses s es := by
  intro es
  induction es with
  | nil =>
    intro s
    simp [runEvents, visitedStatuses]
  | cons e es ih =>
    intro s
    rw [visitedStatuses]
    have hr : runEvents s (e :: es) = runEvents (applyEvent s e) es := rfl
    rw [hr]
    exact List.mem_cons_of_mem s (ih (applyEvent s e))

/-- If a target status with a unique predecessor in the transition table
is ever visited, the run either started there or visited the
predecessor. -/
theorem unique_predecessor_visited (t p : DocStatus)
    (hpred : ∀ (s : DocStatus) (e : DocEvent) (s2 : DocStatus),
      docStep s e = some s2 → s2 = t → s = p) :
    ∀ (es : List DocEvent) (s : DocStatus),
      t ∈ visitedStatuses s es → s = t ∨ p ∈ visitedStatuses s es := by
  intro es
  induction es with
  | nil =>
    intro s h
    simp [visitedStatuses] at h
    exact Or.inl h.symm
  | cons e es ih =>
    intro s h
    rw [visitedStatuses] at h
    rcases List.mem_cons.mp h with h | h
    · exact Or.inl h.symm
    · rcases ih (applyEvent s e) h with h2 | h2
      · unfold applyEvent at h2
        cases hstep : docStep s e with
        | none =>
          rw [hstep] at h2
          simp at h2
          exact Or.inl h2
        | some s2 =>
          rw [hstep] at h2
          simp at h2
          have hp := hpred s e s2 hstep h2
          subst hp
          refine Or.inr ?_
          rw [visitedStatuses]
          exact List.mem_cons_self s (visitedStatuses (applyEvent s e) es)
      · refine Or.inr ?_
        rw [visitedStatuses]
        exact List.mem_cons_of_mem s h2

/-- C1 counterexample: the Document Record created by `UploadBox.onDrop`
carries the status string `ocr_processing`, which is not one of the six
states the claim (and §4.4) allows, though it is one of the source's
`statusConfig` statuses. -/
theorem uploadBox_status_outside_spec_states :
    (uploadBoxAddedDocument "user1" ⟨"contract.pdf", "application/pdf", 1024⟩
        ⟨"doc1", "url", "path"⟩ "2026-01-01").status ∉ specSectionFourStatuses
    ∧ (uploadBoxAddedDocument "user1" ⟨"contract.pdf", "application/pdf", 1024⟩
        ⟨"doc1", "url", "path"⟩ "2026-01-01").status ∈ statusConfigKeys := by
  constructor
  · decide
  · decide

/-- C1 (amended): every status is one of the source's `statusConfig`
keys; the status only moves along the transition-table edges (stated in
the source's names `uploaded → ocr_processing → ocr_completed →
indexing → ready`); terminal statuses admit no transition; `failed` is
reachable from every non-terminal status; and no run from `uploaded`
reaches `ready` without visiting both `ocr_completed` and `indexing`. -/
theorem document_status_machine_walk :
    (∀ s : DocStatus, s.str ∈ statusConfigKeys)
    ∧ (∀ (s s2 : DocStatus) (e : DocEvent),
        docStep s e = some s2 → (s, s2) ∈ docEdges)
    ∧ (∀ (s : DocStatus) (e : DocEvent),
        s.isTerminal = true → docStep s e = none)
    ∧ (∀ s : DocStatus, s.isTerminal = false →
        ∃ es, runEvents s es = DocStatus.failed)
    ∧ (∀ es : List DocEvent,
        runEvents DocStatus.uploaded es = DocStatus.ready →
        DocStatus.indexing ∈ visitedStatuses DocStatus.uploaded es
        ∧ DocStatus.ocr_completed ∈ visitedStatuses DocStatus.uploaded es) := by
  refine ⟨by decide, by decide, by decide, ?_, ?_⟩
  · intro s hs
    cases s
    · exact ⟨[DocEvent.ocrAccepted, DocEvent.ocrExhausted], by decide⟩
    · exact ⟨[DocEvent.ocrExhausted], by decide⟩
    · exact ⟨[DocEvent.indexAccepted, DocEvent.indexExhausted], by decide⟩
    · exact ⟨[DocEvent.indexExhausted], by decide⟩
    · exact absurd hs (by decide)
    · exact absurd hs (by decide)
    · exact absurd hs (by decide)
  · intro es hfinal
    have hready : DocStatus.ready ∈ visitedStatuses DocStatus.uploaded es := by
      rw [← hfinal]
      exact runEvents_mem_visited es DocStatus.uploaded
    have hidx :
        DocStatus.indexing ∈ visitedStatuses DocStatus.uploaded es := by
      rcases unique_predecessor_visited DocStatus.ready DocStatus.indexing
        (by decide) es DocStatus.uploaded hready with h | h
      · exact absurd h (by decide)
      · exact h
    have hocr :
        DocStatus.ocr_completed ∈ visitedStatuses DocStatus.uploaded es := by
      rcases unique_predecessor_visited DocStatus.indexing
        DocStatus.ocr_completed (by decide) es DocStatus.uploaded hidx
        with h | h
      · exact absurd h (by decide)
      · exact h
    exact ⟨hidx, hocr⟩

/-- Witness for C1's amended theorem: the nominal four-event run reaches
`ready`, having visited `ocr_completed` and `indexing`. -/
theorem document_status_machine_walk_witness :
    runEvents DocStatus.uploaded
      [DocEvent.ocrAccepted, DocEvent.ocrSucceeded,
       DocEvent.indexAccepted, DocEvent.indexSucceeded] = DocStatus.ready
    ∧ DocStatus.indexing ∈ visitedStatuses DocStatus.uploaded
      [DocEvent.ocrAccepted, DocEvent.ocrSucceeded,
       DocEvent.indexAccepted, DocEvent.indexSucceeded]
    ∧ DocStatus.ocr_completed ∈ visitedStatuses DocStatus.uploaded
      [DocEvent.ocrAccepted, DocEvent.ocrSucceeded,
       DocEvent.indexAccepted, DocEvent.indexSucceeded] :=
  ⟨by decide,
   (document_status_machine_walk.2.2.2.2
      [DocEvent.ocrAccepted, DocEvent.ocrSucceeded,
       DocEvent.indexAccepted, DocEvent.indexSucceeded] (by decide)).1,
   (document_status_machine_walk.2.2.2.2
      [DocEvent.ocrAccepted, DocEvent.ocrSucceeded,
       DocEvent.indexAccepted, DocEvent.indexSucceeded] (by decide)).2⟩
